import Mathlib

/-!
Shallow embedding of the basicsynth polyphonic synthesizer core
(src/src/lib.rs).  `f32` samples, gains, phases and frequencies are
modelled as real numbers; `u32` sample offsets and `usize` buffer indices
as `Nat`; `VecDeque` modulation queues as lists whose head is the queue
front (`push_back` appends at the tail, `pop_front` drops the head).
-/

namespace BasicSynth

/-- Maximum size of an audio block, src/src/lib.rs line 8. -/
def MAX_BLOCK_SIZE : Nat := 64

/-- One voice of the synthesizer, src/src/lib.rs lines 25-35. -/
structure Voice where
  active : Bool
  note : Nat
  channel : Nat
  frequency : ℝ
  velocities : List (Nat × ℝ)
  pannings : List (Nat × ℝ)
  gains : List (Nat × ℝ)
  phase : ℝ

instance : Inhabited Voice :=
  ⟨{ active := false, note := 0, channel := 0, frequency := 0,
     velocities := [], pannings := [], gains := [], phase := 0 }⟩

/-- The parameter values read once per processing call,
src/src/lib.rs lines 15-23 and 133-138 and 236. -/
structure Params where
  gain : ℝ
  velocity_range : ℝ
  sine_wave : Bool

/-- The note events consumed by the scheduler, src/src/lib.rs lines 156-218.
The `other` constructor stands for the unsupported event kinds that the
source's catch-all arm (line 217) silently ignores. -/
inductive NoteEvent where
  | noteOn (timing : Nat) (channel : Nat) (note : Nat) (velocity : ℝ)
  | polyPressure (timing : Nat) (channel : Nat) (note : Nat) (pressure : ℝ)
  | polyVolume (timing : Nat) (channel : Nat) (note : Nat) (gain : ℝ)
  | polyPan (timing : Nat) (channel : Nat) (note : Nat) (pan : ℝ)
  | noteOff (timing : Nat) (channel : Nat) (note : Nat) (velocity : ℝ)
  | choke (timing : Nat) (channel : Nat) (note : Nat)
  | other (timing : Nat)

/-- `event.timing()` of the source. -/
def NoteEvent.timing : NoteEvent → Nat
  | .noteOn t _ _ _ => t
  | .polyPressure t _ _ _ => t
  | .polyVolume t _ _ _ => t
  | .polyPan t _ _ _ => t
  | .noteOff t _ _ _ => t
  | .choke t _ _ => t
  | .other t => t

/-- The `NoteEvent::VoiceTerminated` message sent by `stop_voices`,
src/src/lib.rs lines 338-343. -/
structure VoiceTerminated where
  timing : Nat
  voice_id : Option Int
  channel : Nat
  note : Nat
deriving DecidableEq

/-- Modelled from the spec: the external (nih_plug util) MIDI-note-to-frequency
conversion used at pool construction, src/src/lib.rs line 47; standard MIDI
tuning with A4 = 440 Hz as in the spec's scenario. -/
noncomputable def midi_note_to_freq (note : Nat) : ℝ :=
  440 * (2 : ℝ) ^ (((note : ℝ) - 69) / 12)

/-- The initial voice pool built by `PolyModSynth::default`,
src/src/lib.rs lines 41-54: channels 0..=16 and notes 0..=127, every voice
inactive with empty queues and phase 0. -/
noncomputable def default_voices : List Voice :=
  (List.range 17).flatMap (fun channel =>
    (List.range 128).map (fun note =>
      { active := false, note := note, channel := channel,
        frequency := midi_note_to_freq note,
        velocities := [], pannings := [], gains := [], phase := 0 }))

/-- `map_value_f32`, src/src/lib.rs lines 350-352. -/
noncomputable def map_value_f32 (x mn mx target_min target_max : ℝ) : ℝ :=
  (x - mn) / (mx - mn) * (target_max - target_min) + target_min

/-- Modelled from the spec: the external (nih_plug util) decibel-to-linear-gain
conversion used at src/src/lib.rs line 275 (`dBToLinearGain`). -/
noncomputable def db_to_gain (dbs : ℝ) : ℝ :=
  (10 : ℝ) ^ (dbs * 0.05)

/-- `constant_power_pan`, src/src/lib.rs lines 354-365.  `f32::to_radians`
multiplies by pi / 180. -/
noncomputable def constant_power_pan (value pan : ℝ) : ℝ × ℝ :=
  if pan = 0 then
    (value, value)
  else
    let angle := pan * 2 * 45 * (Real.pi / 180)
    let coeff := Real.sqrt 2 / 2
    let c := Real.cos angle
    let s := Real.sin angle
    (coeff * (c - s) * value, coeff * (c + s) * value)

/-- The per-sample queue-trimming loop run for each of the three modulation
queues, src/src/lib.rs lines 244-254: while the queue has more than one entry
and the second entry's timestamp is strictly greater than the current sample
index, pop the front. -/
def trimQueue {α : Type*} (sample_idx : Nat) : List (Nat × α) → List (Nat × α)
  | a :: b :: rest =>
    if sample_idx < b.1 then trimQueue sample_idx (b :: rest) else a :: b :: rest
  | q => q

/-- Resolution of the instantaneous gain, src/src/lib.rs lines 256-260:
front of the (already trimmed) queue, or 1.0 when empty. -/
def resolveGain (gains : List (Nat × ℝ)) : ℝ :=
  match gains with
  | g :: _ => g.2
  | [] => 1

/-- Resolution of the instantaneous velocity, src/src/lib.rs lines 262-266:
front of the (already trimmed) queue, or 1.0 when empty. -/
def resolveVelocity (velocities : List (Nat × ℝ)) : ℝ :=
  match velocities with
  | v :: _ => v.2
  | [] => 1

/-- Resolution of the instantaneous pan, src/src/lib.rs lines 268-272:
front of the (already trimmed) queue, or 0.0 (center) when empty. -/
def resolvePan (pannings : List (Nat × ℝ)) : ℝ :=
  match pannings with
  | p :: _ => p.2
  | [] => 0

/-- The per-sample phase advance, src/src/lib.rs lines 285-288: add
`frequency / sample_rate`, then subtract 1.0 once if the result reaches 1.0. -/
noncomputable def phaseStep (phase frequency sample_rate : ℝ) : ℝ :=
  if phase + frequency / sample_rate ≥ 1 then phase + frequency / sample_rate - 1
  else phase + frequency / sample_rate

/-- One iteration of the inner per-sample render loop for one voice,
src/src/lib.rs lines 243-293: trim the three queues, resolve gain, velocity
and pan, compute the amplitude, synthesize the waveform sample from the
current phase, advance the phase, and apply the panning law.  Returns the
updated voice and the stereo pair to accumulate at `sample_idx`. -/
noncomputable def renderSample (p : Params) (sample_rate : ℝ) (voice : Voice)
    (sample_idx : Nat) : Voice × ℝ × ℝ :=
  let gains := trimQueue sample_idx voice.gains
  let velocities := trimQueue sample_idx voice.velocities
  let pannings := trimQueue sample_idx voice.pannings
  let gain := resolveGain gains
  let velocity := resolveVelocity velocities
  let pan := resolvePan pannings
  let velocity_multiplier :=
    db_to_gain (map_value_f32 velocity 0 1 (-p.velocity_range) 0)
  let amp := velocity_multiplier * gain * p.gain
  let sample :=
    (if p.sine_wave then Real.sin (voice.phase * (2 * Real.pi))
     else ((round (voice.phase * 2) : ℤ) : ℝ) - 1) * amp
  let phase := phaseStep voice.phase voice.frequency sample_rate
  let lr := constant_power_pan sample pan
  ({ voice with
      gains := gains
      velocities := velocities
      pannings := pannings
      phase := phase }, lr.1, lr.2)

/-- The stereo output buffer, modelled as a pair of index-to-sample maps. -/
structure StereoOut where
  l : Nat → ℝ
  r : Nat → ℝ

/-- Zero-fill of `output[0][block_start..block_end]` and
`output[1][block_start..block_end]`, src/src/lib.rs lines 233-234. -/
def zeroFill (block_start block_end : Nat) (out : StereoOut) : StereoOut :=
  { l := fun i => if block_start ≤ i ∧ i < block_end then 0 else out.l i,
    r := fun i => if block_start ≤ i ∧ i < block_end then 0 else out.r i }

/-- The body of `for voice in self.voices.iter_mut()` for one voice,
src/src/lib.rs lines 238-295: inactive voices are skipped (`continue`),
an active voice renders each sample index of the sub-block in order and
accumulates (adds) its stereo pair into the output. -/
noncomputable def renderVoice (p : Params) (sample_rate : ℝ)
    (block_start block_end : Nat) (voice : Voice) (out : StereoOut) :
    Voice × StereoOut :=
  if voice.active = false then
    (voice, out)
  else
    (List.range' block_start (block_end - block_start)).foldl
      (fun acc sample_idx =>
        let res := renderSample p sample_rate acc.1 sample_idx
        (res.1,
         { l := Function.update acc.2.l sample_idx (acc.2.l sample_idx + res.2.1),
           r := Function.update acc.2.r sample_idx (acc.2.r sample_idx + res.2.2) }))
      (voice, out)

/-- The render pass over the whole voice pool for one sub-block,
src/src/lib.rs lines 238-295, threading the output buffer through the voices
in pool order. -/
noncomputable def renderVoices (p : Params) (sample_rate : ℝ)
    (block_start block_end : Nat) :
    List Voice → StereoOut → List Voice × StereoOut
  | [], out => ([], out)
  | v :: vs, out =>
    let res := renderVoice p sample_rate block_start block_end v out
    let rest := renderVoices p sample_rate block_start block_end vs res.2
    (res.1 :: rest.1, rest.2)

/-- `PolyModSynth::start_voice`, src/src/lib.rs lines 307-325: mark the voice
at index `channel * 128 + note` active and clear its three modulation
queues. -/
def PolyModSynth.start_voice (voices : List Voice) (channel note : Nat) :
    List Voice :=
  let idx := channel * 128 + note
  let voice := voices.getD idx default
  voices.set idx
    { voice with active := true, velocities := [], pannings := [], gains := [] }

/-- `PolyModSynth::stop_voices`, src/src/lib.rs lines 326-347: send one
`VoiceTerminated` event carrying `(sample_offset, channel * 128 + note,
channel, note)`, then set the voice inactive and reset its phase to 0.
The modulation queues are not touched. -/
def PolyModSynth.stop_voices (voices : List Voice)
    (notifs : List VoiceTerminated) (sample_offset channel note : Nat) :
    List Voice × List VoiceTerminated :=
  let idx := channel * 128 + note
  let voice := voices.getD idx default
  let notifs := notifs ++
    [{ timing := sample_offset,
       voice_id := some ((channel : Int) * 128 + (note : Int)),
       channel := channel, note := note }]
  (voices.set idx { voice with active := false, phase := 0 }, notifs)

/-- The event dispatch of the drain loop, src/src/lib.rs lines 156-218:
note-on starts the voice and pushes the initial velocity; the three poly
modulation events push into the matching voice's queue without activating it;
note-off and choke call `stop_voices`; everything else is ignored. -/
def handleEvent (voices : List Voice) (notifs : List VoiceTerminated) :
    NoteEvent → List Voice × List VoiceTerminated
  | .noteOn timing channel note velocity =>
    let voices := PolyModSynth.start_voice voices channel note
    let idx := channel * 128 + note
    let voice := voices.getD idx default
    (voices.set idx
      { voice with velocities := voice.velocities ++ [(timing, velocity)] },
     notifs)
  | .polyPressure timing channel note pressure =>
    let idx := channel * 128 + note
    let voice := voices.getD idx default
    (voices.set idx
      { voice with velocities := voice.velocities ++ [(timing, pressure)] },
     notifs)
  | .polyVolume timing channel note gain =>
    let idx := channel * 128 + note
    let voice := voices.getD idx default
    (voices.set idx { voice with gains := voice.gains ++ [(timing, gain)] },
     notifs)
  | .polyPan timing channel note pan =>
    let idx := channel * 128 + note
    let voice := voices.getD idx default
    (voices.set idx
      { voice with pannings := voice.pannings ++ [(timing, pan)] },
     notifs)
  | .noteOff timing channel note _ =>
    PolyModSynth.stop_voices voices notifs timing channel note
  | .choke timing channel note =>
    PolyModSynth.stop_voices voices notifs timing channel note
  | .other _ => (voices, notifs)

/-- The `'events` loop, src/src/lib.rs lines 150-230: drain every pending
event whose timing is at or before `block_start`, applying it to the pool;
then, if the next pending event's timing is strictly before `block_end`,
shrink `block_end` to that timing.  Returns the remaining events, the
possibly shrunk `block_end`, and the updated pool and sent events. -/
def drainEvents (block_start block_end : Nat) :
    List NoteEvent → List Voice → List VoiceTerminated →
    List NoteEvent × Nat × List Voice × List VoiceTerminated
  | [], voices, notifs => ([], block_end, voices, notifs)
  | e :: rest, voices, notifs =>
    if e.timing ≤ block_start then
      let res := handleEvent voices notifs e
      drainEvents block_start block_end rest res.1 res.2
    else if e.timing < block_end then
      (e :: rest, e.timing, voices, notifs)
    else
      (e :: rest, block_end, voices, notifs)

/-- The `while block_start < num_samples` scheduler loop,
src/src/lib.rs lines 143-300, with an explicit fuel for termination (one
unit per sub-block; `block_start` strictly increases each iteration, so
`num_samples` units always suffice).  Besides the pool, the sent events and
the output buffer, the loop records the rendered sub-block `[block_start,
block_end)` boundaries in a trace. -/
noncomputable def processLoop (p : Params) (sample_rate : ℝ) (num_samples : Nat) :
    Nat → Nat → Nat → List NoteEvent → List Voice → List VoiceTerminated →
    StereoOut → List (Nat × Nat) →
    List Voice × List VoiceTerminated × StereoOut × List (Nat × Nat)
  | 0, _, _, _, voices, notifs, out, trace => (voices, notifs, out, trace)
  | fuel + 1, block_start, block_end, events, voices, notifs, out, trace =>
    if block_start < num_samples then
      let dr := drainEvents block_start block_end events voices notifs
      let events := dr.1
      let block_end := dr.2.1
      let voices := dr.2.2.1
      let notifs := dr.2.2.2
      let out := zeroFill block_start block_end out
      let rv := renderVoices p sample_rate block_start block_end voices out
      processLoop p sample_rate num_samples fuel block_end
        (min (block_end + MAX_BLOCK_SIZE) num_samples) events rv.1 notifs rv.2
        (trace ++ [(block_start, block_end)])
    else
      (voices, notifs, out, trace)

/-- `PolyModSynth::process`, src/src/lib.rs lines 122-303: start with
`block_start = 0` and `block_end = min(MAX_BLOCK_SIZE, num_samples)` and run
the scheduler loop over the whole buffer. -/
noncomputable def PolyModSynth.process (p : Params) (sample_rate : ℝ)
    (num_samples : Nat) (events : List NoteEvent) (voices : List Voice)
    (out : StereoOut) :
    List Voice × List VoiceTerminated × StereoOut × List (Nat × Nat) :=
  processLoop p sample_rate num_samples num_samples 0
    (min MAX_BLOCK_SIZE num_samples) events voices [] out []

/-- `PolyModSynth::reset`, src/src/lib.rs lines 116-120: set every voice's
`active` flag to false, touching nothing else. -/
def PolyModSynth.reset (voices : List Voice) : List Voice :=
  voices.map (fun voice => { voice with active := false })

/-- Stated from the claim's words, for comparison with `trimQueue`: the most
recently enqueued entry whose timestamp is at or before the sample index. -/
def latestAtOrBefore {α : Type*} (sample_idx : Nat) (q : List (Nat × α)) :
    Option (Nat × α) :=
  (q.filter (fun e => e.1 ≤ sample_idx)).getLast?

/-- A concrete inactive voice for channel 0, note 0, used in concrete runs. -/
noncomputable def exVoice : Voice :=
  { active := false, note := 0, channel := 0, frequency := 440,
    velocities := [], pannings := [], gains := [], phase := 0 }

/-- Concrete parameter values used in concrete runs. -/
noncomputable def exParams : Params :=
  { gain := 1, velocity_range := 40, sine_wave := true }

/-- An all-zero output buffer used in concrete runs. -/
noncomputable def exOut : StereoOut := { l := fun _ => 0, r := fun _ => 0 }

end BasicSynth

namespace BasicSynth

/-- Helper: reading back the element just written by `List.set`. -/
theorem getD_set_self (l : List Voice) (i : Nat) (v : Voice) (h : i < l.length) :
    (l.set i v).getD i default = v := by
  rw [List.getD_eq_getElem?_getD, List.getElem?_set_eq_of_lt v h]
  rfl

/-- Helper: one popping step of the trimming loop. -/
theorem trimQueue_cons_of_lt {α : Type*} {s : Nat} (a b : Nat × α)
    (rest : List (Nat × α)) (h : s < b.1) :
    trimQueue s (a :: b :: rest) = trimQueue s (b :: rest) := by
  rw [trimQueue, if_pos h]

/-- Helper: the trimming loop stops as soon as the second timestamp is at or
before the sample index. -/
theorem trimQueue_cons_of_ge {α : Type*} {s : Nat} (a b : Nat × α)
    (rest : List (Nat × α)) (h : ¬ s < b.1) :
    trimQueue s (a :: b :: rest) = a :: b :: rest := by
  rw [trimQueue, if_neg h]

/-- Helper for C3: with non-decreasing timestamps, once the second entry's
timestamp is in the future the trimming loop collapses the queue to its last
entry. -/
theorem trimQueue_collapse {α : Type*} (s : Nat) :
    ∀ (rest : List (Nat × α)) (a b : Nat × α),
      List.Chain' (fun x y => x.1 ≤ y.1) (b :: rest) → s < b.1 →
      trimQueue s (a :: b :: rest) = [(b :: rest).getLast (List.cons_ne_nil b rest)] := by
  intro rest
  induction rest with
  | nil =>
    intro a b _ hs
    rw [trimQueue_cons_of_lt a b [] hs]
    rfl
  | cons c rest ih =>
    intro a b hchain hs
    have hbc : b.1 ≤ c.1 := (List.chain'_cons.mp hchain).1
    have hcr : List.Chain' (fun x y => x.1 ≤ y.1) (c :: rest) :=
      (List.chain'_cons.mp hchain).2
    have hsc : s < c.1 := lt_of_lt_of_le hs hbc
    rw [trimQueue_cons_of_lt a b (c :: rest) hs, ih b c hcr hsc]
    congr 1

end BasicSynth

namespace BasicSynth

/-- C3, counterexample: at sample index 0, trimming leaves the queue
[(0,1),(0,2)] untouched (its second timestamp is not strictly greater
than 0), so the front is the oldest entry (0,1) and not the most recently
enqueued entry with timestamp at or before 0, which is (0,2). -/
theorem C3_counterexample :
    (trimQueue 0 [(0, 1), (0, 2)] : List (Nat × Nat)).head? ≠
      latestAtOrBefore 0 ([(0, 1), (0, 2)] : List (Nat × Nat)) := by
  decide

/-- C3, amended: at every rendered sample index the pipeline pops the front
of a modulation queue while the queue has more than one entry and the second
entry's timestamp is strictly greater than the sample index; for a queue with
non-decreasing timestamps this trimming leaves the queue unchanged when the
second entry's timestamp is at or before the sample index (so the front stays
the oldest entry, not the latest effective one), and otherwise collapses the
queue to its final entry, whose timestamp is strictly in the future. -/
theorem C3_trim_front (s : Nat) (a b : Nat × ℝ) (rest : List (Nat × ℝ))
    (hchain : List.Chain' (fun x y => x.1 ≤ y.1) (a :: b :: rest)) :
    (¬ s < b.1 → trimQueue s (a :: b :: rest) = a :: b :: rest) ∧
    (s < b.1 → trimQueue s (a :: b :: rest) =
      [(b :: rest).getLast (List.cons_ne_nil b rest)]) := by
  constructor
  · intro h
    exact trimQueue_cons_of_ge a b rest h
  · intro h
    exact trimQueue_collapse s rest a b (List.chain'_cons.mp hchain).2 h

/-- Witness for C3_trim_front at s = 5, queue [(0,1),(10,2)]. -/
theorem C3_trim_front_witness :
    List.Chain' (fun (x y : Nat × ℝ) => x.1 ≤ y.1) [(0, 1), (10, 2)] ∧
    ((¬ 5 < (((10 : Nat), (2 : ℝ))).1 →
        trimQueue 5 [((0 : Nat), (1 : ℝ)), (10, 2)] = [(0, 1), (10, 2)]) ∧
     (5 < (((10 : Nat), (2 : ℝ))).1 →
        trimQueue 5 [((0 : Nat), (1 : ℝ)), (10, 2)] =
          [([((10 : Nat), (2 : ℝ))]).getLast (List.cons_ne_nil (10, 2) [])])) := by
  constructor
  · simp
  · exact C3_trim_front 5 (0, 1) (10, 2) [] (by simp)

/-- C4: the panning law returns `(value, value)` at center; off-center it uses
the angle pan * 90 degrees in radians and the coefficient sqrt 2 / 2, and it
is constant-power: the squares of the two channels sum to the square of the
input value. -/
theorem C4_pan_law (v p : ℝ) (hp : p ≠ 0) :
    constant_power_pan v 0 = (v, v) ∧
    constant_power_pan v p =
      (Real.sqrt 2 / 2 *
        (Real.cos (p * 90 * (Real.pi / 180)) - Real.sin (p * 90 * (Real.pi / 180))) * v,
       Real.sqrt 2 / 2 *
        (Real.cos (p * 90 * (Real.pi / 180)) + Real.sin (p * 90 * (Real.pi / 180))) * v) ∧
    (constant_power_pan v p).1 ^ 2 + (constant_power_pan v p).2 ^ 2 = v ^ 2 := by
  have hang : p * 2 * 45 * (Real.pi / 180) = p * 90 * (Real.pi / 180) := by ring
  refine ⟨by simp [constant_power_pan], ?_, ?_⟩
  · simp only [constant_power_pan, if_neg hp]
    rw [hang]
  · simp only [constant_power_pan, if_neg hp]
    have h1 : Real.sqrt 2 ^ 2 = 2 := Real.sq_sqrt (by norm_num)
    have h2 : Real.sin (p * 2 * 45 * (Real.pi / 180)) ^ 2 +
        Real.cos (p * 2 * 45 * (Real.pi / 180)) ^ 2 = 1 :=
      Real.sin_sq_add_cos_sq _
    linear_combination
      (Real.cos (p * 2 * 45 * (Real.pi / 180)) ^ 2 +
        Real.sin (p * 2 * 45 * (Real.pi / 180)) ^ 2) * v ^ 2 / 2 * h1 +
      v ^ 2 * h2

/-- Witness for C4_pan_law at v = 1, pan = 1. -/
theorem C4_pan_law_witness :
    (1 : ℝ) ≠ 0 ∧
    (constant_power_pan 1 1).1 ^ 2 + (constant_power_pan 1 1).2 ^ 2 = 1 ^ 2 :=
  ⟨by norm_num, (C4_pan_law 1 1 (by norm_num)).2.2⟩

/-- C5: for a phase in [0,1) and a positive per-sample increment
frequency / sample_rate below 1, the phase update (add the increment, then
subtract 1.0 once if the result reaches 1.0) lands again in [0,1), equals the
incremented phase modulo one wrap, and never stays in place: the phase
strictly increases modulo 1. -/
theorem C5_phase_advance (phase frequency sample_rate : ℝ)
    (hsr : 0 < sample_rate) (hf : 0 < frequency)
    (hlt : frequency / sample_rate < 1) (h0 : 0 ≤ phase) (h1 : phase < 1) :
    0 ≤ phaseStep phase frequency sample_rate ∧
    phaseStep phase frequency sample_rate < 1 ∧
    (phaseStep phase frequency sample_rate = phase + frequency / sample_rate ∨
      phaseStep phase frequency sample_rate = phase + frequency / sample_rate - 1) ∧
    phaseStep phase frequency sample_rate ≠ phase := by
  have hstep : 0 < frequency / sample_rate := div_pos hf hsr
  unfold phaseStep
  split_ifs with h
  · refine ⟨by linarith, by linarith, Or.inr rfl, ?_⟩
    intro heq
    have : frequency / sample_rate = 1 := by linarith
    linarith
  · push_neg at h
    refine ⟨by linarith, by linarith, Or.inl rfl, ?_⟩
    intro heq
    have : frequency / sample_rate = 0 := by linarith
    linarith

/-- Witness for C5_phase_advance at phase 1/2, frequency 1, sample rate 2:
the update wraps exactly to 0. -/
theorem C5_phase_advance_witness :
    (0 : ℝ) < 2 ∧
    (0 ≤ phaseStep (1 / 2) 1 2 ∧
     phaseStep (1 / 2) 1 2 < 1 ∧
     (phaseStep (1 / 2) 1 2 = 1 / 2 + 1 / 2 ∨
       phaseStep (1 / 2) 1 2 = 1 / 2 + 1 / 2 - 1) ∧
     phaseStep (1 / 2) 1 2 ≠ 1 / 2) :=
  ⟨by norm_num,
   C5_phase_advance (1 / 2) 1 2 (by norm_num) (by norm_num) (by norm_num)
     (by norm_num) (by norm_num)⟩

end BasicSynth

namespace BasicSynth

/-- C6: `stop_voices` emits exactly one VoiceTerminated event carrying
(timestamp, channel * 128 + note, channel, note), sets the addressed voice
inactive and resets its phase to 0. -/
theorem C6_stop_voices_effect (voices : List Voice)
    (notifs : List VoiceTerminated) (t channel note : Nat)
    (h : channel * 128 + note < voices.length) :
    (PolyModSynth.stop_voices voices notifs t channel note).2 =
      notifs ++ [{ timing := t,
                   voice_id := some ((channel : Int) * 128 + (note : Int)),
                   channel := channel, note := note }] ∧
    (PolyModSynth.stop_voices voices notifs t channel note).1.getD
        (channel * 128 + note) default =
      { voices.getD (channel * 128 + note) default with
          active := false
          phase := 0 } := by
  refine ⟨rfl, ?_⟩
  exact getD_set_self _ _ _ h

/-- Witness for C6_stop_voices_effect on a one-voice pool. -/
theorem C6_stop_voices_effect_witness :
    (0 : Nat) * 128 + 0 < ([exVoice] : List Voice).length ∧
    ((PolyModSynth.stop_voices [exVoice] [] 3 0 0).2 =
      [] ++ [{ timing := 3, voice_id := some ((0 : Int) * 128 + (0 : Int)),
               channel := 0, note := 0 }] ∧
     (PolyModSynth.stop_voices [exVoice] [] 3 0 0).1.getD (0 * 128 + 0) default =
      { ([exVoice] : List Voice).getD (0 * 128 + 0) default with
          active := false
          phase := 0 }) :=
  ⟨by decide, C6_stop_voices_effect [exVoice] [] 3 0 0 (by decide)⟩

/-- C7: when a modulation queue is empty the resolved instantaneous value is
its default (gain 1, velocity 1, pan 0), and the rendered sample of a voice
with all queues empty uses exactly these defaults: the amplitude is the
velocity-1 multiplier times gain 1 times the global gain, and center panning
sends the same sample to both channels. -/
theorem C7_empty_queue_defaults (p : Params) (sample_rate : ℝ) (voice : Voice)
    (sample_idx : Nat) (hg : voice.gains = []) (hv : voice.velocities = [])
    (hpan : voice.pannings = []) :
    resolveGain (trimQueue sample_idx voice.gains) = 1 ∧
    resolveVelocity (trimQueue sample_idx voice.velocities) = 1 ∧
    resolvePan (trimQueue sample_idx voice.pannings) = 0 ∧
    (renderSample p sample_rate voice sample_idx).2.1 =
      (if p.sine_wave then Real.sin (voice.phase * (2 * Real.pi))
       else ((round (voice.phase * 2) : ℤ) : ℝ) - 1) *
        (db_to_gain (map_value_f32 1 0 1 (-p.velocity_range) 0) * 1 * p.gain) ∧
    (renderSample p sample_rate voice sample_idx).2.1 =
      (renderSample p sample_rate voice sample_idx).2.2 := by
  simp only [renderSample, hg, hv, hpan]
  refine ⟨rfl, rfl, rfl, ?_, ?_⟩ <;>
    simp [trimQueue, resolveGain, resolveVelocity, resolvePan, constant_power_pan]

/-- Witness for C7_empty_queue_defaults on a freshly activated voice. -/
theorem C7_empty_queue_defaults_witness :
    exVoice.gains = [] ∧
    (resolveGain (trimQueue 0 exVoice.gains) = 1 ∧
     resolveVelocity (trimQueue 0 exVoice.velocities) = 1 ∧
     resolvePan (trimQueue 0 exVoice.pannings) = 0 ∧
     (renderSample exParams 48000 exVoice 0).2.1 =
       (if exParams.sine_wave then Real.sin (exVoice.phase * (2 * Real.pi))
        else ((round (exVoice.phase * 2) : ℤ) : ℝ) - 1) *
         (db_to_gain (map_value_f32 1 0 1 (-exParams.velocity_range) 0) * 1 *
           exParams.gain) ∧
     (renderSample exParams 48000 exVoice 0).2.1 =
       (renderSample exParams 48000 exVoice 0).2.2) :=
  ⟨rfl, C7_empty_queue_defaults exParams 48000 exVoice 0 rfl rfl rfl⟩

/-- C8: reset maps every voice to the same voice with only the active flag
forced to false (note, channel, frequency, phase and all three queues are
unchanged), and doing it twice equals doing it once. -/
theorem C8_reset_idempotent (voices : List Voice) :
    PolyModSynth.reset voices =
      voices.map (fun v =>
        { active := false, note := v.note, channel := v.channel,
          frequency := v.frequency, velocities := v.velocities,
          pannings := v.pannings, gains := v.gains, phase := v.phase }) ∧
    PolyModSynth.reset (PolyModSynth.reset voices) = PolyModSynth.reset voices := by
  constructor
  · rfl
  · unfold PolyModSynth.reset
    rw [List.map_map]
    rfl

/-- C1, counterexample: processing a NoteOn followed by a NoteOff at the same
(channel, note) leaves the voice inactive but with a non-empty velocity
queue, so the claimed invariant (inactive implies all queues empty) is not
preserved by the engine's operations. -/
theorem C1_counterexample :
    ((PolyModSynth.process exParams 48000 1
        [.noteOn 0 0 0 1, .noteOff 0 0 0 1] [exVoice] exOut).1.getD 0
        default).active = false ∧
    ((PolyModSynth.process exParams 48000 1
        [.noteOn 0 0 0 1, .noteOff 0 0 0 1] [exVoice] exOut).1.getD 0
        default).velocities = [(0, 1)] :=
  ⟨rfl, rfl⟩

/-- C1, amended: in the initial state every voice is inactive with all three
modulation queues empty and phase 0; note-off/choke deactivation sets the
voice inactive and resets its phase to 0 but leaves its modulation queues
unchanged, so the invariant holds initially but is not preserved by every
operation. -/
theorem C1_initial_state_invariant :
    (∀ v ∈ default_voices, v.active = false ∧ v.velocities = [] ∧
      v.pannings = [] ∧ v.gains = [] ∧ v.phase = 0) ∧
    (∀ (voices : List Voice) (notifs : List VoiceTerminated)
        (t channel note : Nat),
      channel * 128 + note < voices.length →
      (PolyModSynth.stop_voices voices notifs t channel note).1.getD
          (channel * 128 + note) default =
        { voices.getD (channel * 128 + note) default with
            active := false
            phase := 0 }) := by
  constructor
  · intro v hv
    simp only [default_voices, List.mem_flatMap, List.mem_map,
      List.mem_range] at hv
    obtain ⟨ch, _, note, _, rfl⟩ := hv
    exact ⟨rfl, rfl, rfl, rfl, rfl⟩
  · intro voices notifs t channel note h
    exact getD_set_self _ _ _ h

/-- Witness for C1_initial_state_invariant on a one-voice pool. -/
theorem C1_initial_state_invariant_witness :
    (0 : Nat) * 128 + 0 < ([exVoice] : List Voice).length ∧
    (PolyModSynth.stop_voices [exVoice] [] 0 0 0).1.getD (0 * 128 + 0) default =
      { ([exVoice] : List Voice).getD (0 * 128 + 0) default with
          active := false
          phase := 0 } :=
  ⟨by decide, C1_initial_state_invariant.2 [exVoice] [] 0 0 0 (by decide)⟩

/-- C9: a NoteOff addressed to an already-inactive voice still emits a
VoiceTerminated event and still resets the phase: one NoteOn followed by two
NoteOffs on the same (channel, note) emits two VoiceTerminated events even
though only one voice was ever active. -/
theorem C9_spurious_terminations :
    (PolyModSynth.process exParams 48000 1
        [.noteOn 0 0 0 1, .noteOff 0 0 0 1, .noteOff 0 0 0 1]
        [exVoice] exOut).2.1 =
      [{ timing := 0, voice_id := some 0, channel := 0, note := 0 },
       { timing := 0, voice_id := some 0, channel := 0, note := 0 }] ∧
    ((PolyModSynth.process exParams 48000 1
        [.noteOn 0 0 0 1, .noteOff 0 0 0 1, .noteOff 0 0 0 1]
        [exVoice] exOut).1.getD 0 default).phase = 0 :=
  ⟨rfl, rfl⟩

end BasicSynth

namespace BasicSynth

/-- Helper: the events left pending by the drain loop form a sublist of the
events it was given. -/
theorem drainEvents_sublist (block_start block_end : Nat) :
    ∀ (events : List NoteEvent) (voices : List Voice)
      (notifs : List VoiceTerminated),
      (drainEvents block_start block_end events voices notifs).1.Sublist events := by
  intro events
  induction events with
  | nil =>
    intro voices notifs
    exact List.Sublist.refl _
  | cons e rest ih =>
    intro voices notifs
    simp only [drainEvents]
    split_ifs with h1 h2
    · exact ((ih _ _).trans (List.sublist_cons_self e rest))
    · exact List.Sublist.refl _
    · exact List.Sublist.refl _

/-- Helper: the drain loop either keeps `block_end` or shrinks it to the
timing of one of the pending events, strictly beyond `block_start`. -/
theorem drainEvents_blockEnd (block_start block_end : Nat) :
    ∀ (events : List NoteEvent) (voices : List Voice)
      (notifs : List VoiceTerminated),
      (drainEvents block_start block_end events voices notifs).2.1 = block_end ∨
      (block_start < (drainEvents block_start block_end events voices notifs).2.1 ∧
        ∃ e ∈ events,
          e.timing = (drainEvents block_start block_end events voices notifs).2.1) := by
  intro events
  induction events with
  | nil =>
    intro voices notifs
    exact Or.inl rfl
  | cons e rest ih =>
    intro voices notifs
    simp only [drainEvents]
    split_ifs with h1 h2
    · rcases ih (handleEvent voices notifs e).1 (handleEvent voices notifs e).2 with
        h | ⟨ha, x, hx, hb⟩
      · exact Or.inl h
      · exact Or.inr ⟨ha, x, List.mem_cons_of_mem e hx, hb⟩
    · exact Or.inr ⟨Nat.lt_of_not_le h1, e, List.mem_cons_self e rest, rfl⟩
    · exact Or.inl rfl

/-- Helper: with events in non-decreasing timing order, every event still
pending after the drain has timing at or beyond the (possibly shrunk)
`block_end`. -/
theorem drainEvents_remaining_ge (block_start block_end : Nat) :
    ∀ (events : List NoteEvent) (voices : List Voice)
      (notifs : List VoiceTerminated),
      List.Pairwise (fun x y => x.timing ≤ y.timing) events →
      ∀ e ∈ (drainEvents block_start block_end events voices notifs).1,
        (drainEvents block_start block_end events voices notifs).2.1 ≤ e.timing := by
  intro events
  induction events with
  | nil =>
    intro voices notifs _ e he
    simp [drainEvents] at he
  | cons e rest ih =>
    intro voices notifs hpw x hx
    rw [drainEvents] at hx ⊢
    split_ifs at hx ⊢ with h1 h2
    · exact ih _ _ (List.pairwise_cons.mp hpw).2 x hx
    · rcases List.mem_cons.mp hx with rfl | hmem
      · exact Nat.le_refl _
      · exact List.rel_of_pairwise_cons hpw hmem
    · rcases List.mem_cons.mp hx with rfl | hmem
      · exact Nat.le_of_not_lt h2
      · exact Nat.le_trans (Nat.le_of_not_lt h2) (List.rel_of_pairwise_cons hpw hmem)

/-- Helper: every event given to the drain loop is either still pending
afterwards or was applied because its timing was at or before `block_start`. -/
theorem drainEvents_processed_le (block_start block_end : Nat) :
    ∀ (events : List NoteEvent) (voices : List Voice)
      (notifs : List VoiceTerminated),
      ∀ e ∈ events,
        e ∈ (drainEvents block_start block_end events voices notifs).1 ∨
        e.timing ≤ block_start := by
  intro events
  induction events with
  | nil =>
    intro voices notifs e he
    exact absurd he (List.not_mem_nil e)
  | cons e rest ih =>
    intro voices notifs x hx
    rw [drainEvents]
    split_ifs with h1 h2
    · rcases List.mem_cons.mp hx with rfl | hmem
      · exact Or.inr h1
      · exact ih _ _ x hmem
    · exact Or.inl hx
    · exact Or.inl hx

end BasicSynth

namespace BasicSynth

/-- Helper: every sub-block the scheduler loop appends to the trace lies at
or beyond the current `block_start`, is well-ordered and inside the buffer,
and no pending event's timing lies strictly inside it. -/
theorem processLoop_trace_spec (p : Params) (sample_rate : ℝ)
    (num_samples : Nat) :
    ∀ (fuel block_start block_end : Nat) (events : List NoteEvent)
      (voices : List Voice) (notifs : List VoiceTerminated) (out : StereoOut)
      (trace : List (Nat × Nat)),
      List.Pairwise (fun x y => x.timing ≤ y.timing) events →
      (∀ e ∈ events, e.timing < num_samples) →
      block_start ≤ block_end → block_end ≤ num_samples →
      ∀ x ∈ (processLoop p sample_rate num_samples fuel block_start block_end
          events voices notifs out trace).2.2.2,
        x ∈ trace ∨
        (block_start ≤ x.1 ∧ x.1 ≤ x.2 ∧ x.2 ≤ num_samples ∧
          ∀ e ∈ events, e.timing ≤ x.1 ∨ x.2 ≤ e.timing) := by
  intro fuel
  induction fuel with
  | zero =>
    intro bs be events voices notifs out trace _ _ _ _ x hx
    exact Or.inl hx
  | succ n ih =>
    intro bs be events voices notifs out trace hpw hlt hbsbe hben x hx
    simp only [processLoop] at hx
    by_cases hrun : bs < num_samples
    · rw [if_pos hrun] at hx
      have hsub : (drainEvents bs be events voices notifs).1.Sublist events :=
        drainEvents_sublist bs be events voices notifs
      have hbe' := drainEvents_blockEnd bs be events voices notifs
      have hrem := drainEvents_remaining_ge bs be events voices notifs hpw
      have hproc := drainEvents_processed_le bs be events voices notifs
      have hbsbe' : bs ≤ (drainEvents bs be events voices notifs).2.1 := by
        rcases hbe' with h | ⟨h, _⟩
        · rw [h]; exact hbsbe
        · exact Nat.le_of_lt h
      have hben' : (drainEvents bs be events voices notifs).2.1 ≤ num_samples := by
        rcases hbe' with h | ⟨_, e, he, hte⟩
        · rw [h]; exact hben
        · rw [← hte]; exact Nat.le_of_lt (hlt e he)
      have hpw' : List.Pairwise (fun x y => x.timing ≤ y.timing)
          (drainEvents bs be events voices notifs).1 :=
        List.Pairwise.sublist hsub hpw
      have hlt' : ∀ e ∈ (drainEvents bs be events voices notifs).1,
          e.timing < num_samples :=
        fun e he => hlt e (hsub.subset he)
      have hmain := ih (drainEvents bs be events voices notifs).2.1
        (min ((drainEvents bs be events voices notifs).2.1 + MAX_BLOCK_SIZE)
          num_samples)
        (drainEvents bs be events voices notifs).1 _ _ _
        (trace ++ [(bs, (drainEvents bs be events voices notifs).2.1)])
        hpw' hlt'
        (Nat.le_min.mpr ⟨Nat.le_add_right _ _, hben'⟩)
        (Nat.min_le_right _ _) x hx
      rcases hmain with hx' | ⟨h1, h2, h3, h4⟩
      · rcases List.mem_append.mp hx' with hmem | hmem
        · exact Or.inl hmem
        · have hxeq : x = (bs, (drainEvents bs be events voices notifs).2.1) :=
            List.mem_singleton.mp hmem
          subst hxeq
          refine Or.inr ⟨Nat.le_refl _, hbsbe', hben', ?_⟩
          intro e he
          rcases hproc e he with hin | hle
          · exact Or.inr (hrem e hin)
          · exact Or.inl hle
      · refine Or.inr ⟨Nat.le_trans hbsbe' h1, h2, h3, ?_⟩
        intro e he
        rcases hproc e he with hin | hle
        · exact h4 e hin
        · exact Or.inl (Nat.le_trans hle (Nat.le_trans hbsbe' h1))
    · rw [if_neg hrun] at hx
      exact Or.inl hx

end BasicSynth

namespace BasicSynth

/-- C2: when the events of a processing call arrive in non-decreasing timing
order with timings below the total sample count, no sub-block rendered by the
scheduler contains an event timing strictly inside its open interval: every
event timing is at or before the sub-block's start or at or beyond its end. -/
theorem C2_subblock_edges (p : Params) (sample_rate : ℝ) (num_samples : Nat)
    (events : List NoteEvent) (voices : List Voice) (out : StereoOut)
    (hpw : List.Pairwise (fun x y => x.timing ≤ y.timing) events)
    (hlt : ∀ e ∈ events, e.timing < num_samples) :
    ∀ x ∈ (PolyModSynth.process p sample_rate num_samples events voices
        out).2.2.2,
      ∀ e ∈ events, ¬(x.1 < e.timing ∧ e.timing < x.2) := by
  rintro x hx e he ⟨hlo, hhi⟩
  have hmain := processLoop_trace_spec p sample_rate num_samples num_samples 0
    (min MAX_BLOCK_SIZE num_samples) events voices [] out [] hpw hlt
    (Nat.zero_le _) (Nat.min_le_right _ _) x hx
  rcases hmain with h | ⟨_, _, _, h4⟩
  · exact absurd h (List.not_mem_nil x)
  · rcases h4 e he with h | h
    · exact absurd hlo (Nat.not_lt.mpr h)
    · exact absurd hhi (Nat.not_lt.mpr h)

/-- Witness for C2_subblock_edges: one NoteOn at timing 5 in a 100-sample
call. -/
theorem C2_subblock_edges_witness :
    List.Pairwise (fun x y => NoteEvent.timing x ≤ NoteEvent.timing y)
      [NoteEvent.noteOn 5 0 0 1] ∧
    (∀ e ∈ [NoteEvent.noteOn 5 0 0 1], NoteEvent.timing e < 100) ∧
    ∀ x ∈ (PolyModSynth.process exParams 48000 100 [NoteEvent.noteOn 5 0 0 1]
        [] exOut).2.2.2,
      ∀ e ∈ [NoteEvent.noteOn 5 0 0 1],
        ¬(x.1 < NoteEvent.timing e ∧ NoteEvent.timing e < x.2) :=
  ⟨by simp, by simp [NoteEvent.timing],
   C2_subblock_edges exParams 48000 100 [NoteEvent.noteOn 5 0 0 1] [] exOut
     (by simp) (by simp [NoteEvent.timing])⟩

/-- C10: when the events of a processing call arrive in non-decreasing timing
order with timings below the total sample count, every sub-block
[block_start, block_end) recorded by the scheduler loop satisfies
block_start ≤ block_end ≤ num_samples, so the buffer-slice zeroing of
[block_start, block_end) and the per-sample writes (whose indices lie in
[block_start, block_end)) never reach an out-of-range index or an inverted
slice range. -/
theorem C10_subblock_bounds (p : Params) (sample_rate : ℝ) (num_samples : Nat)
    (events : List NoteEvent) (voices : List Voice) (out : StereoOut)
    (hpw : List.Pairwise (fun x y => x.timing ≤ y.timing) events)
    (hlt : ∀ e ∈ events, e.timing < num_samples) :
    ∀ x ∈ (PolyModSynth.process p sample_rate num_samples events voices
        out).2.2.2,
      x.1 ≤ x.2 ∧ x.2 ≤ num_samples := by
  intro x hx
  have hmain := processLoop_trace_spec p sample_rate num_samples num_samples 0
    (min MAX_BLOCK_SIZE num_samples) events voices [] out [] hpw hlt
    (Nat.zero_le _) (Nat.min_le_right _ _) x hx
  rcases hmain with h | ⟨_, h2, h3, _⟩
  · exact absurd h (List.not_mem_nil x)
  · exact ⟨h2, h3⟩

/-- Witness for C10_subblock_bounds: one Choke at timing 3 in a 10-sample
call. -/
theorem C10_subblock_bounds_witness :
    List.Pairwise (fun x y => NoteEvent.timing x ≤ NoteEvent.timing y)
      [NoteEvent.choke 3 0 0] ∧
    (∀ e ∈ [NoteEvent.choke 3 0 0], NoteEvent.timing e < 10) ∧
    ∀ x ∈ (PolyModSynth.process exParams 48000 10 [NoteEvent.choke 3 0 0]
        [] exOut).2.2.2,
      x.1 ≤ x.2 ∧ x.2 ≤ 10 :=
  ⟨by simp, by simp [NoteEvent.timing],
   C10_subblock_bounds exParams 48000 10 [NoteEvent.choke 3 0 0] [] exOut
     (by simp) (by simp [NoteEvent.timing])⟩

end BasicSynth
